import Mathlib

/-!
Verification of the SP3 precise-orbit file library (parser, store, merger,
interpolator, writer) against its natural-language specification.

The Rust source is shallowly embedded:
* `hifitime::Epoch` is modelled as an integer count of nanoseconds
  (hifitime stores epochs in exact fixed-point nanoseconds, so integer
  nanoseconds is a faithful model of its equality, ordering and
  subtraction); `hifitime::Duration` likewise.
* `f64` values that the code only stores, compares for equality/order, or
  feeds through exact decimal parsing are modelled as rationals.
* `BTreeMap` is modelled as an association list whose keys are kept in
  strictly ascending order by insertion; iteration is list order.
* fallible operations return `Option`/`Except`; a Rust panic, and a
  provably non-terminating loop, are `none`.
-/

namespace Sp3

/-- Model of hifitime::Epoch: nanoseconds since 1970-01-01 00:00:00 of the
underlying scale (hifitime uses exact fixed-point nanoseconds internally,
so equality / ordering / subtraction are faithfully integer ops). -/
abbrev Epoch := Int

/-- Model of hifitime::Duration, in exact nanoseconds. -/
abbrev Duration := Int

/-- Model of hifitime::TimeScale (the subset the SP3 format names). -/
inductive TimeScale where
  | UTC
  | TAI
  | GPST
  | GST
  | BDT
deriving DecidableEq

/-- Model of rinex::Constellation (the variants this crate touches). -/
inductive Constellation where
  | GPS
  | Glonass
  | Galileo
  | BeiDou
  | QZSS
  | IRNSS
  | SBAS
  | Mixed
deriving DecidableEq

/-- Model of rinex::Sv: a vehicle is a constellation plus a numeric index
(src/lib.rs uses it as the per-epoch map key). -/
structure Sv where
  prn : Nat
  constellation : Constellation
deriving DecidableEq

/-- Index used to give Sv a total order mirroring the derived Ord on the
rinex enum (any fixed enumeration order; only totality matters here). -/
def constIdx : Constellation → Nat
  | Constellation.GPS => 0
  | Constellation.Glonass => 1
  | Constellation.Galileo => 2
  | Constellation.BeiDou => 3
  | Constellation.QZSS => 4
  | Constellation.IRNSS => 5
  | Constellation.SBAS => 6
  | Constellation.Mixed => 7

/-- Strict total order on Sv (field order of the derived Ord: prn first,
then constellation), used as the BTreeMap key order. -/
def svLtB (a b : Sv) : Bool :=
  decide (a.prn < b.prn) || (decide (a.prn = b.prn) && decide (constIdx a.constellation < constIdx b.constellation))

/-- File revision, src/version.rs (C before D). -/
inductive Version where
  | C
  | D
deriving DecidableEq

/-- Strict order on Version: C < D (src/version.rs derives PartialOrd on
the declaration order C, D). -/
def versionLtB : Version → Version → Bool
  | Version.C, Version.D => true
  | _, _ => false

/-- Enumeration DataType of src/lib.rs. -/
inductive DataType where
  | Position
  | Velocity
deriving DecidableEq

/-- Enumeration OrbitType of src/lib.rs. -/
inductive OrbitType where
  | FIT
  | EXT
  | BCT
  | BHN
  | HLM
deriving DecidableEq

/-- Enumeration DataUsedUnitary of src/data_used.rs. -/
inductive DataUsedUnitary where
  | UndifferencedPhase
  | UndifferencedPhaseDerivative
  | DualReceiverPhase
  | DualReceiverPhaseDerivative
  | DualReceiverDualPhase
  | DualReceiverDualPhaseDerivative
  | UndifferencedCode
  | UndifferencedCodeDerivative
  | DualReceiverCode
  | DualReceiverCodeDerivative
  | DualReceiverDualCode
  | DualReceiverDualCodeDerivative
  | ComplexMix
  | Orbit
deriving DecidableEq

/-- Structure DataUsed of src/data_used.rs: a Vec of one or two unitary descriptors. -/
structure DataUsed where
  inner : List DataUsedUnitary
deriving DecidableEq

/-- DataUsed::default(): the derived Default gives an empty Vec. -/
def dataUsedDefault : DataUsed := { inner := [] }

/-- Structure DataUsed of src/data_used.rs::complex_combination.  The Rust body is
`if self.inner.is_empty() { self.inner[0] == ComplexMix } else { false }`;
indexing an empty Vec panics, modelled as `none`. -/
def complex_combination (d : DataUsed) : Option Bool :=
  if d.inner.isEmpty then
    (d.inner[0]?).map (fun u => decide (u = DataUsedUnitary.ComplexMix))
  else
    some false

/-- Generic model of BTreeMap lookup over the association-list model:
keys are unique, so first-match lookup is map lookup. -/
def mapLookup {α β : Type} [DecidableEq α] (k : α) : List (α × β) → Option β
  | [] => none
  | (k0, v0) :: rest => if k = k0 then some v0 else mapLookup k rest

/-- Generic model of BTreeMap insert: keeps keys in strictly ascending
`ltb` order, replacing the value when the key is present. -/
def mapInsert {α β : Type} [DecidableEq α] (ltb : α → α → Bool) (k : α) (v : β) :
    List (α × β) → List (α × β)
  | [] => [(k, v)]
  | (k0, v0) :: rest =>
    if ltb k k0 then (k, v) :: (k0, v0) :: rest
    else if k = k0 then (k, v) :: rest
    else (k0, v0) :: mapInsert ltb k v rest

/-- Key order of the outer BTreeMap (epochs). -/
def epochLtB (a b : Epoch) : Bool := decide (a < b)

/-- 3D position vector (src/lib.rs Vector3D), components as rationals. -/
abbrev Vector3D := Rat × Rat × Rat

/-- BTreeMap from Sv, association-list model. -/
abbrev SvMap (β : Type) := List (Sv × β)

/-- BTreeMap from Epoch, association-list model. -/
abbrev EpochMap (β : Type) := List (Epoch × β)

/-- The SP3 dataset value, field for field src/lib.rs struct SP3. -/
structure SP3 where
  version : Version
  data_type : DataType
  data_used : DataUsed
  coord_system : String
  orbit_type : OrbitType
  agency : String
  constellation : Constellation
  time_system : TimeScale
  week_counter : Nat × Rat
  mjd_start : Nat × Rat
  epoch : List Epoch
  epoch_interval : Duration
  sv : List Sv
  position : EpochMap (SvMap Vector3D)
  clock : EpochMap (SvMap Rat)
  velocities : EpochMap (SvMap Vector3D)
  clock_rate : EpochMap (SvMap Rat)
  comments : List String
deriving DecidableEq

/-- Merge error cases used by src/lib.rs (merge.rs declares the enum; the
variants referenced by Merge::merge_mut are DataProvider, TimeScale and
CoordSystem, one per hard compatibility check). -/
inductive MergeError where
  | DataProvider
  | TimeScale
  | CoordSystem
deriving DecidableEq

/-- One iteration of the position-merge loop of Merge::merge_mut
(src/lib.rs lines 731-741): an epoch already present has the right-hand
per-vehicle entries inserted over it; an unseen epoch is pushed onto the
epoch list and its whole map inserted. -/
def mergePosStep (acc : SP3) (entry : Epoch × SvMap Vector3D) : SP3 :=
  match mapLookup entry.1 acc.position with
  | some inner =>
      let inner2 := entry.2.foldl (fun m sp => mapInsert svLtB sp.1 sp.2 m) inner
      { acc with position := mapInsert epochLtB entry.1 inner2 acc.position }
  | none =>
      { acc with
          epoch := acc.epoch ++ [entry.1],
          position := mapInsert epochLtB entry.1 entry.2 acc.position }

/-- One iteration of the clock-merge loop of Merge::merge_mut
(src/lib.rs lines 745-765): unlike the position loop, a new epoch is
pushed onto the epoch list only when not already contained in it. -/
def mergeClkStep (acc : SP3) (entry : Epoch × SvMap Rat) : SP3 :=
  match mapLookup entry.1 acc.clock with
  | some inner =>
      let inner2 := entry.2.foldl (fun m sp => mapInsert svLtB sp.1 sp.2 m) inner
      { acc with clock := mapInsert epochLtB entry.1 inner2 acc.clock }
  | none =>
      let acc1 := { acc with clock := mapInsert epochLtB entry.1 entry.2 acc.clock }
      if entry.1 ∈ acc1.epoch then acc1
      else { acc1 with epoch := acc1.epoch ++ [entry.1] }

/-- One iteration of the velocity-merge loop of Merge::merge_mut
(src/lib.rs lines 769-789), same containment check as the clock loop. -/
def mergeVelStep (acc : SP3) (entry : Epoch × SvMap Vector3D) : SP3 :=
  match mapLookup entry.1 acc.velocities with
  | some inner =>
      let inner2 := entry.2.foldl (fun m sp => mapInsert svLtB sp.1 sp.2 m) inner
      { acc with velocities := mapInsert epochLtB entry.1 inner2 acc.velocities }
  | none =>
      let acc1 := { acc with velocities := mapInsert epochLtB entry.1 entry.2 acc.velocities }
      if entry.1 ∈ acc1.epoch then acc1
      else { acc1 with epoch := acc1.epoch ++ [entry.1] }

/-- Constellation reconciliation of Merge::merge_mut (src/lib.rs lines
696-701): differing constellations collapse to Mixed. -/
def mergeConstStep (s rhs : SP3) : SP3 :=
  if s.constellation ≠ rhs.constellation then { s with constellation := Constellation.Mixed }
  else s

/-- Revision reconciliation of Merge::merge_mut (src/lib.rs lines
702-705): the higher revision wins. -/
def mergeVersionStep (s rhs : SP3) : SP3 :=
  if versionLtB s.version rhs.version then { s with version := rhs.version } else s

/-- MJD-start reconciliation of Merge::merge_mut (src/lib.rs lines
706-712): the integer part and the fractional part are lowered
independently, each by its own `if rhs < self` assignment. -/
def mergeMjdStep (s rhs : SP3) : SP3 :=
  let sA := if rhs.mjd_start.1 < s.mjd_start.1 then
      { s with mjd_start := (rhs.mjd_start.1, s.mjd_start.2) } else s
  if rhs.mjd_start.2 < sA.mjd_start.2 then
    { sA with mjd_start := (sA.mjd_start.1, rhs.mjd_start.2) }
  else sA

/-- Week-counter reconciliation of Merge::merge_mut (src/lib.rs lines
713-719), the same independent componentwise lowering. -/
def mergeWeekStep (s rhs : SP3) : SP3 :=
  let sA := if rhs.week_counter.1 < s.week_counter.1 then
      { s with week_counter := (rhs.week_counter.1, s.week_counter.2) } else s
  if rhs.week_counter.2 < sA.week_counter.2 then
    { sA with week_counter := (sA.week_counter.1, rhs.week_counter.2) }
  else sA

/-- Vehicle-table union of Merge::merge_mut (src/lib.rs lines 720-725):
append unseen vehicles in right-hand order. -/
def mergeSvStep (s rhs : SP3) : SP3 :=
  { s with sv := rhs.sv.foldl (fun l sv => if sv ∈ l then l else l ++ [sv]) s.sv }

/-- Sampling-interval reconciliation of Merge::merge_mut (src/lib.rs
lines 726-727): pessimistic maximum. -/
def mergeIntervalStep (s rhs : SP3) : SP3 :=
  { s with epoch_interval := max s.epoch_interval rhs.epoch_interval }

/-- Merge::merge_mut for SP3 (src/lib.rs lines 686-794).  The imperative
receiver is threaded explicitly; the returned pair is (error, final state
of the destination), so an early error return carries the untouched
destination, exactly as the Rust early `return Err(..)` does. -/
def merge_mut (s rhs : SP3) : Option MergeError × SP3 :=
  if s.agency ≠ rhs.agency then (some MergeError.DataProvider, s)
  else if s.time_system ≠ rhs.time_system then (some MergeError.TimeScale, s)
  else if s.coord_system ≠ rhs.coord_system then (some MergeError.CoordSystem, s)
  else
    let s1 := mergeConstStep s rhs
    let s2 := mergeVersionStep s1 rhs
    let s3 := mergeMjdStep s2 rhs
    let s4 := mergeWeekStep s3 rhs
    let s5 := mergeSvStep s4 rhs
    let s6 := mergeIntervalStep s5 rhs
    let s7 := rhs.position.foldl mergePosStep s6
    let s8 := rhs.clock.foldl mergeClkStep s7
    let s9 := rhs.velocities.foldl mergeVelStep s8
    (none, { s9 with epoch := List.insertionSort (fun a b : Epoch => a ≤ b) s9.epoch })

/-- Merge::merge for SP3 (src/lib.rs lines 681-685): clone then merge_mut. -/
def merge (s rhs : SP3) : Except MergeError SP3 :=
  match merge_mut s rhs with
  | (some e, _) => Except.error e
  | (none, m) => Except.ok m

/-- The position-record update performed by SP3::from_file for one parsed
position entry (src/lib.rs lines 381-392): the vector is stored under the
current epoch and vehicle only when the guard
`pos_x != 0.0 && pos_y != 0.0 && pos_z != 0.0` holds. -/
def storePosition (position : EpochMap (SvMap Vector3D)) (epoch : Epoch) (sv : Sv)
    (p : Vector3D) : EpochMap (SvMap Vector3D) :=
  if p.1 ≠ 0 ∧ p.2.1 ≠ 0 ∧ p.2.2 ≠ 0 then
    match mapLookup epoch position with
    | some e => mapInsert epochLtB epoch (mapInsert svLtB sv p e) position
    | none => mapInsert epochLtB epoch (mapInsert svLtB sv p []) position
  else position

/-- SP3::sv_position (src/lib.rs lines 586-590): flatten the position
record in iteration order (epoch ascending, then vehicle ascending). -/
def sv_position (s : SP3) : List (Epoch × Sv × Vector3D) :=
  s.position.flatMap (fun p => p.2.map (fun q => (p.1, q.1, q.2)))

/-- The per-vehicle sample list collected at the start of SP3::interpolate
(src/lib.rs lines 627-638). -/
def svData (s : SP3) (sv : Sv) : List (Epoch × Vector3D) :=
  (sv_position s).filterMap (fun t => if t.2.1 = sv then some (t.1, t.2.2) else none)

/-- Model of hifitime Duration::to_seconds: exact nanoseconds to (real) seconds,
modelled in the rationals. -/
def toSeconds (d : Duration) : Rat := (d : Rat) / 1000000000

/-- The (min_before, min_after) window bounds of SP3::interpolate
(src/lib.rs lines 646-649): odd order gets a symmetric window, even order
one extra sample after the center. -/
def windowMargins (order : Nat) : Nat × Nat :=
  if order % 2 > 0 then ((order + 1) / 2, (order + 1) / 2)
  else (order / 2, order / 2 + 1)

/-- Default sample used to model in-bounds Rust indexing totally. -/
def zeroSample : Epoch × Vector3D := (0, (0, 0, 0))

/-- The Lagrange-basis accumulation loop of SP3::interpolate
(src/lib.rs lines 655-667), in exact rational arithmetic. -/
def lagrange (data : List (Epoch × Vector3D)) (offset order : Nat) (epoch : Epoch) : Vector3D :=
  (List.range (order + 1)).foldl (fun acc i =>
    let li := (List.range (order + 1)).foldl (fun li j =>
      if j ≠ i then
        li * toSeconds (epoch - (data.getD (offset + j) zeroSample).1)
          / toSeconds ((data.getD (offset + i) zeroSample).1 - (data.getD (offset + j) zeroSample).1)
      else li) 1
    (acc.1 + (data.getD (offset + i) zeroSample).2.1 * li,
      acc.2.1 + (data.getD (offset + i) zeroSample).2.2.1 * li,
      acc.2.2 + (data.getD (offset + i) zeroSample).2.2.2 * li)) (0, 0, 0)

/-- The center-sample search of SP3::interpolate (src/lib.rs lines
639-641): first sample within one epoch interval of the target. -/
def findCenter (s : SP3) (epoch : Epoch) (sv : Sv) : Option (Epoch × Vector3D) :=
  (svData s sv).find? (fun p => decide (abs (p.1 - epoch) < s.epoch_interval))

/-- The center index of SP3::interpolate (src/lib.rs line 643): index of
the first sample sharing the epoch of the found center.  When no center is
found the Rust falls to the outer else (None); both None paths of the
source collapse here. -/
def centerIndex (s : SP3) (epoch : Epoch) (sv : Sv) : Option Nat :=
  match findCenter s epoch sv with
  | none => none
  | some center => (svData s sv).findIdx? (fun x => decide (x.1 = center.1))

/-- SP3::interpolate (src/lib.rs lines 625-675). -/
def interpolate (s : SP3) (epoch : Epoch) (sv : Sv) (order : Nat) : Option Vector3D :=
  match centerIndex s epoch sv with
  | none => none
  | some c =>
    if c < (windowMargins order).1 ∨ (svData s sv).length - c < (windowMargins order).2 then
      none
    else
      some (lagrange (svData s sv) (c - (windowMargins order).1) order epoch)

/-- The ParsingError variants reachable from parse_epoch
(src/lib.rs lines 227-246; the full enum has further variants used by the
header parsers, which are not needed by any claim). -/
inductive ParsingError where
  | EpochYear (s : String)
  | EpochMonth (s : String)
  | EpochDay (s : String)
  | EpochHours (s : String)
  | EpochMinutes (s : String)
  | EpochSeconds (s : String)
  | EpochMilliSeconds (s : String)
  | Epoch
deriving DecidableEq

/-- Rust byte-range slicing content[a..b] on ASCII text, as characters. -/
def slice (content : String) (a b : Nat) : List Char := (content.toList.take b).drop a

/-- Model of str::trim restricted to spaces (the only padding this format emits). -/
def trimChars (l : List Char) : List Char :=
  ((l.dropWhile (fun c => c = ' ')).reverse.dropWhile (fun c => c = ' ')).reverse

/-- ASCII digit test. -/
def isDigitChar (c : Char) : Bool := decide ('0' ≤ c) && decide (c ≤ '9')

/-- Numeric value of the digit list (most significant first). -/
def digitsVal (l : List Char) : Nat :=
  l.foldl (fun acc c => 10 * acc + (c.toNat - '0'.toNat)) 0

/-- Model of u32::from_str on an already-trimmed field: nonempty digit string
(the optional leading sign Rust also accepts never occurs in this
format). -/
def parseNatDigits (l : List Char) : Option Nat :=
  if l = [] then none
  else if l.all isDigitChar then some (digitsVal l)
  else none

/-- Model of u32::from_str(field.trim()), as parse_epoch applies it. -/
def parseU32 (l : List Char) : Option Nat := parseNatDigits (trimChars l)

/-- Model of f64::from_str restricted to the shapes the fractional-second field
can carry: an unsigned digit string with at most one decimal point. -/
def parseF64 (l : List Char) : Option Rat :=
  if l = [] then none
  else if l.all isDigitChar then some ((digitsVal l : Nat) : Rat)
  else
    match l.findIdx? (fun c => decide (c = '.')) with
    | none => none
    | some i =>
      let ip := l.take i
      let fp := l.drop (i + 1)
      if ip.all isDigitChar && fp.all isDigitChar && !(decide (ip = []) && decide (fp = [])) then
        some ((digitsVal ip : Nat) + ((digitsVal fp : Nat) : Rat) / ((10 : Rat) ^ fp.length))
      else none

/-- The Hinnant days-from-civil algorithm: days since 1970-01-01 of the date y-m-d
(model of the calendar arithmetic hifitime performs). -/
def daysFromCivil (y : Int) (m d : Nat) : Int :=
  let yAdj : Int := if m ≤ 2 then y - 1 else y
  let era : Int := Int.fdiv yAdj 400
  let yoe : Int := yAdj - era * 400
  let mp : Int := if m ≤ 2 then (m : Int) + 9 else (m : Int) - 3
  let doy : Int := (153 * mp + 2) / 5 + (d : Int) - 1
  let doe : Int := yoe * 365 + yoe / 4 - yoe / 100 + doy
  era * 146097 + doe - 719468

/-- Per-scale anchor offset standing in for the internal scale handling of hifitime
conversion; the exact values are irrelevant to every claim, distinct
constants merely keep distinct scales from collapsing. -/
def tsOffsetNs : TimeScale → Int
  | TimeScale.UTC => 0
  | TimeScale.TAI => 1
  | TimeScale.GPST => 2
  | TimeScale.GST => 3
  | TimeScale.BDT => 4

/-- Model of hifitime Epoch::from_str applied to the Gregorian string
parse_epoch renders: range validation, then conversion to nanoseconds.
Note the rendered string carries exactly y, m, d, hh, mm, ss and the
scale; no fractional part is rendered into it. -/
def epochFromGregorian (y m d hh mm ss : Nat) (ts : TimeScale) : Except ParsingError Epoch :=
  if 1 ≤ m ∧ m ≤ 12 ∧ 1 ≤ d ∧ d ≤ 31 ∧ hh ≤ 23 ∧ mm ≤ 59 ∧ ss ≤ 60 then
    Except.ok (daysFromCivil (y : Int) m d * 86400000000000
      + ((hh * 3600 + mm * 60 + ss : Nat) : Int) * 1000000000 + tsOffsetNs ts)
  else Except.error ParsingError.Epoch

/-- The Rust pattern result.or(Err(e))? on an optional parse. -/
def okOr {α : Type} (o : Option α) (e : ParsingError) : Except ParsingError α :=
  match o with
  | some a => Except.ok a
  | none => Except.error e

/-- Function parse_epoch (src/lib.rs lines 262-290): fixed slices for year, month,
day, hours, minutes, seconds and the fractional remainder, each with its
own named error; the instant is then built from the six integer fields
and the time scale (the parsed fractional value is bound but unused by
the source). -/
def parse_epoch (content : String) (ts : TimeScale) : Except ParsingError Epoch := do
  let y ← okOr (parseU32 (slice content 0 4)) (ParsingError.EpochYear (String.mk (slice content 0 4)))
  let m ← okOr (parseU32 (slice content 4 7)) (ParsingError.EpochMonth (String.mk (slice content 4 7)))
  let d ← okOr (parseU32 (slice content 7 10)) (ParsingError.EpochDay (String.mk (slice content 7 10)))
  let hh ← okOr (parseU32 (slice content 10 13)) (ParsingError.EpochHours (String.mk (slice content 10 13)))
  let mm ← okOr (parseU32 (slice content 13 16)) (ParsingError.EpochMinutes (String.mk (slice content 13 16)))
  let ss ← okOr (parseU32 (slice content 16 19)) (ParsingError.EpochSeconds (String.mk (slice content 16 19)))
  let _ssFract ← okOr (parseF64 (trimChars (slice content 20 27))) (ParsingError.EpochMilliSeconds (String.mk (slice content 20 27)))
  epochFromGregorian y m d hh mm ss ts

/-- One line (or write call) of the output of SP3::to_file, as characters. -/
abbrev Chunk := List Char

/-- String literal to character-list coercion helper. -/
def str (x : String) : Chunk := x.toList

/-- Decimal digits of a natural number. -/
def natDigits (n : Nat) : Chunk := Nat.toDigits 10 n

/-- Zero-padded fixed-width decimal (Rust {:0w}). -/
def padZero (w n : Nat) : Chunk := List.replicate (w - (natDigits n).length) '0' ++ natDigits n

/-- Fixed-point rendering of an f64 with 7 decimals ({:6.7}); fractional
digits are truncated where Rust rounds — no claim inspects these digit
strings. -/
def fmtRat (q : Rat) : Chunk :=
  let scaled := (Int.floor (abs q * 10000000)).toNat
  (if q < 0 then ['-'] else []) ++ natDigits (scaled / 10000000) ++ '.' :: padZero 7 (scaled % 10000000)

/-- Display of Version (src/version.rs). -/
def versionChar : Version → Char
  | Version.C => 'c'
  | Version.D => 'd'

/-- Display of DataType (src/lib.rs lines 82-89). -/
def dataTypeChar : DataType → Char
  | DataType.Position => 'P'
  | DataType.Velocity => 'V'

/-- Display of OrbitType (src/lib.rs lines 115-125). -/
def orbitTypeStr : OrbitType → String
  | OrbitType.FIT => "FIT"
  | OrbitType.EXT => "EXT"
  | OrbitType.BCT => "BCT"
  | OrbitType.BHN => "BHN"
  | OrbitType.HLM => "HLM"

/-- Display of DataUsedUnitary (src/data_used.rs lines 78-97). -/
def dataUsedUnitaryStr : DataUsedUnitary → String
  | DataUsedUnitary.UndifferencedPhase => "u"
  | DataUsedUnitary.UndifferencedPhaseDerivative => "du"
  | DataUsedUnitary.DualReceiverPhase => "s"
  | DataUsedUnitary.DualReceiverPhaseDerivative => "ds"
  | DataUsedUnitary.DualReceiverDualPhase => "d"
  | DataUsedUnitary.DualReceiverDualPhaseDerivative => "dd"
  | DataUsedUnitary.UndifferencedCode => "U"
  | DataUsedUnitary.UndifferencedCodeDerivative => "dU"
  | DataUsedUnitary.DualReceiverCode => "S"
  | DataUsedUnitary.DualReceiverCodeDerivative => "dS"
  | DataUsedUnitary.DualReceiverDualCode => "D"
  | DataUsedUnitary.DualReceiverDualCodeDerivative => "dD"
  | DataUsedUnitary.ComplexMix => "MIXED"
  | DataUsedUnitary.Orbit => "ORBIT"

/-- Display of DataUsed (src/data_used.rs lines 129-140). -/
def dataUsedChunk (du : DataUsed) : Chunk :=
  match du.inner with
  | [] => []
  | [a] => str (dataUsedUnitaryStr a)
  | a :: b :: _ => str (dataUsedUnitaryStr a) ++ '+' :: str (dataUsedUnitaryStr b)

/-- First character of the rinex Constellation rendering (never a slash). -/
def constChar : Constellation → Char
  | Constellation.GPS => 'G'
  | Constellation.Glonass => 'R'
  | Constellation.Galileo => 'E'
  | Constellation.BeiDou => 'C'
  | Constellation.QZSS => 'J'
  | Constellation.IRNSS => 'I'
  | Constellation.SBAS => 'S'
  | Constellation.Mixed => 'M'

/-- Display of rinex Sv: constellation letter then two-digit index. -/
def svFmt (sv : Sv) : Chunk := constChar sv.constellation :: padZero 2 sv.prn

/-- The Hinnant civil-from-days algorithm: inverse calendar conversion used to model
the to_gregorian_utc conversion of hifitime. -/
def civilFromDays (z0 : Int) : Int × Nat × Nat :=
  let z := z0 + 719468
  let era := Int.fdiv z 146097
  let doe := z - era * 146097
  let yoe := (doe - doe / 1460 + doe / 36524 - doe / 146096) / 365
  let y := yoe + era * 400
  let doy := doe - (365 * yoe + yoe / 4 - yoe / 100)
  let mp := (5 * doy + 2) / 153
  let d := doy - (153 * mp + 2) / 5 + 1
  let m := if mp < 10 then mp + 3 else mp - 9
  (y + (if m ≤ 2 then 1 else 0), m.toNat, d.toNat)

/-- Model of hifitime Epoch::to_gregorian_utc. -/
def toGregorianUTC (e : Epoch) : Int × Nat × Nat × Nat × Nat × Nat × Nat :=
  let ns := (Int.emod e 1000000000).toNat
  let secs := Int.fdiv e 1000000000
  let days := Int.fdiv secs 86400
  let sod := (Int.emod secs 86400).toNat
  let c := civilFromDays days
  (c.1, c.2.1, c.2.2, sod / 3600, sod % 3600 / 60, sod % 60, ns)

/-- Header line 1 written by SP3::to_file (src/lib.rs lines 475-492). -/
def line1Chunk (s : SP3) (fe : Epoch) : Chunk :=
  let g := toGregorianUTC fe
  '#' :: versionChar s.version :: dataTypeChar s.data_type ::
    (padZero 4 g.1.toNat ++ str " " ++ padZero 2 g.2.1 ++ str " " ++ padZero 2 g.2.2.1 ++ str " "
      ++ padZero 2 g.2.2.2.1 ++ str " " ++ padZero 2 g.2.2.2.2.1 ++ str " "
      ++ padZero 2 g.2.2.2.2.2.1
      ++ '.' :: padZero 8 g.2.2.2.2.2.2 ++ str "       " ++ natDigits s.epoch.length ++ str " "
      ++ dataUsedChunk s.data_used ++ str " " ++ str s.coord_system ++ str " "
      ++ str (orbitTypeStr s.orbit_type) ++ str " " ++ str s.agency ++ str "\n")

/-- Header line 2 written by SP3::to_file (src/lib.rs lines 495-503). -/
def line2Chunk (s : SP3) : Chunk :=
  '#' :: '#' ::
    (str " " ++ padZero 4 s.week_counter.1 ++ str "     " ++ fmtRat s.week_counter.2
      ++ str "      " ++ fmtRat (toSeconds s.epoch_interval) ++ str " "
      ++ natDigits s.mjd_start.1 ++ str " " ++ fmtRat s.mjd_start.2 ++ str "\n")

/-- The vehicle-count write of SP3::to_file (src/lib.rs line 506). -/
def svCountChunk (s : SP3) : Chunk :=
  '+' :: (str "   " ++ natDigits s.sv.length ++ str "    ")

/-- The trailing filler of the vehicle block (src/lib.rs lines 516-525):
the source appends " 00" in a loop that stops only when the line length
is exactly 60, so from a remainder of length len < 60 it terminates
exactly when 60 - len is a multiple of 3 (after a 60-character flush the
remainder restarts at 8 characters and the loop then hangs forever); the
divergent case is modelled as none. -/
def padTo60 (content : Chunk) : Option Chunk :=
  if (60 - content.length) % 3 = 0 then
    some (content ++ (List.replicate ((60 - content.length) / 3) (str " 00")).flatten
      ++ str "\n")
  else none

/-- The vehicle-list accumulation loop of SP3::to_file (src/lib.rs lines
507-514): 60-character lines are flushed and restarted with a "+" pad. -/
def svChunksAux : List Sv → List Chunk → Chunk → List Chunk × Chunk
  | [], chunks, content => (chunks, content)
  | sv :: rest, chunks, content =>
    let content2 := content ++ svFmt sv
    if content2.length = 60 then svChunksAux rest (chunks ++ [content2]) (str "+       ")
    else svChunksAux rest chunks content2

/-- The full vehicle block of SP3::to_file (src/lib.rs lines 506-526);
none models a run whose padding loop never terminates. -/
def svBlockChunks (svs : List Sv) : Option (List Chunk) :=
  if (svChunksAux svs [] []).2.length < 60 then
    match padTo60 (svChunksAux svs [] []).2 with
    | none => none
    | some pad => some ((svChunksAux svs [] []).1 ++ [pad])
  else some (svChunksAux svs [] []).1

/-- The comment block of SP3::to_file (src/lib.rs lines 528-533): one
line per recorded comment, then `4 - count` blank filler comment lines.
The subtraction is on usize: with more than four comments it underflows
— panic in a debug build, wrap to 2^64 - 1 fillers in release — so no
four-slot block is ever produced there; both abnormal outcomes are
modelled as none. -/
def commentChunks (cs : List String) : Option (List Chunk) :=
  if cs.length ≤ 4 then
    some (cs.map (fun c => '/' :: '*' :: ' ' :: (str c ++ str "\n"))
      ++ List.replicate (4 - cs.length) ('/' :: '*' :: ' ' :: str "\n"))
  else none

/-- One epoch marker line of SP3::to_file (src/lib.rs lines 535-543). -/
def epochLineChunk (e : Epoch) : Chunk :=
  let g := toGregorianUTC e
  '*' :: (str "  " ++ padZero 4 g.1.toNat ++ str " " ++ padZero 2 g.2.1 ++ str " "
    ++ padZero 2 g.2.2.1 ++ str "  " ++ padZero 2 g.2.2.2.1 ++ str " "
    ++ padZero 2 g.2.2.2.2.1 ++ str " " ++ padZero 2 g.2.2.2.2.2.1
    ++ '.' :: natDigits g.2.2.2.2.2.2 ++ str " \n")

/-- The position lines of one epoch block (src/lib.rs lines 544-558). -/
def posLineChunks (s : SP3) (e : Epoch) : List Chunk :=
  ((sv_position s).filterMap (fun t => if t.1 = e then some (t.2.1, t.2.2) else none)).map
    (fun p => 'P' :: (svFmt p.1 ++ str " " ++ fmtRat p.2.1 ++ str " " ++ fmtRat p.2.2.1
      ++ str " " ++ fmtRat p.2.2.2 ++ str "\n"))

/-- The per-epoch blocks of SP3::to_file (src/lib.rs lines 534-559). -/
def epochChunks (s : SP3) : List Chunk :=
  s.epoch.flatMap (fun e => epochLineChunk e :: posLineChunks s e)

/-- SP3::first_epoch (src/lib.rs lines 573-575). -/
def first_epoch (s : SP3) : Option Epoch := s.epoch[0]?

/-- SP3::to_file (src/lib.rs lines 469-562) as the list of strings passed
to the buffered writer; none models the abnormal runs: the panic of
`self.first_epoch().unwrap()` on an empty epoch list, a vehicle-block
padding loop that never terminates, and the underflow of the comment
filler count. -/
def to_file (s : SP3) : Option (List Chunk) :=
  match first_epoch s with
  | none => none
  | some fe =>
    match svBlockChunks s.sv with
    | none => none
    | some svb =>
      match commentChunks s.comments with
      | none => none
      | some cc =>
        some ([line1Chunk s fe, line2Chunk s, svCountChunk s] ++ svb ++ cc
          ++ epochChunks s ++ [str "EOF"])

/-- A written chunk is a comment line exactly when it carries the comment
tag of the format. -/
def isCommentChunk : Chunk → Bool
  | a :: b :: _ => a == '/' && b == '*'
  | _ => false

/-- Inner-map well-formedness: the BTreeMap<Sv, _> key invariant (keys
strictly ascending), which holds for every map the crate builds since
all are built through insert. -/
abbrev svMapWF {β : Type} (m : SvMap β) : Prop :=
  List.Pairwise (fun p q => svLtB p.1 q.1 = true) m

/-- Record well-formedness: outer epoch keys strictly ascending and every
inner vehicle map well-formed. -/
abbrev recWF {β : Type} (m : EpochMap (SvMap β)) : Prop :=
  List.Pairwise (fun p q : Epoch × SvMap β => epochLtB p.1 q.1 = true) m
    ∧ ∀ p ∈ m, svMapWF p.2

/-- Dataset well-formedness: the documented invariants of the data model
(epoch list strictly increasing, record maps with the BTreeMap key
invariant). -/
abbrev SP3WF (s : SP3) : Prop :=
  List.Pairwise (fun a b : Epoch => a < b) s.epoch
    ∧ recWF s.position ∧ recWF s.clock ∧ recWF s.velocities

/-- Spec-side definition, written from the words of the spec for the epoch
union law: the deduplicated union of the two epoch lists, sorted
ascending. -/
def specEpochUnion (a b : List Epoch) : List Epoch :=
  (List.insertionSort (fun x y : Epoch => x ≤ y) (a ++ b)).dedup

/-- Concrete vehicle used by the concrete datasets below. -/
def sv1 : Sv := { prn := 1, constellation := Constellation.GPS }

/-- A minimal header-only dataset shared by the concrete instances. -/
def baseSP3 : SP3 :=
  { version := Version.D
    data_type := DataType.Position
    data_used := dataUsedDefault
    coord_system := "IGS14"
    orbit_type := OrbitType.FIT
    agency := "IGS"
    constellation := Constellation.GPS
    time_system := TimeScale.GPST
    week_counter := (2077, 0)
    mjd_start := (58783, 0)
    epoch := []
    epoch_interval := 300000000000
    sv := []
    position := []
    clock := []
    velocities := []
    clock_rate := []
    comments := [] }

/-- Left input of the C2 failing pair: epoch 100 carries clock data only. -/
def c2A : SP3 := { baseSP3 with epoch := [100], clock := [(100, [(sv1, 5)])], sv := [sv1] }

/-- Right input of the C2 failing pair: epoch 100 carries position data. -/
def c2B : SP3 :=
  { baseSP3 with epoch := [100], position := [(100, [(sv1, (1, 2, 3))])], sv := [sv1] }

/-- The rational one half, as a literal normalized fraction (kept in a
kernel-reducible form). -/
def ratHalf : Rat := ⟨1, 2, by decide, Nat.coprime_one_left 2⟩

/-- The rational one tenth, as a literal normalized fraction. -/
def ratTenth : Rat := ⟨1, 10, by decide, Nat.coprime_one_left 10⟩

/-- C4 input whose start (100 + 0.5) is the earlier of the pair. -/
def c4A : SP3 :=
  { baseSP3 with mjd_start := (100, ratHalf), week_counter := (10, ratHalf), epoch_interval := 300 }

/-- C4 input with later start but smaller fractional parts. -/
def c4B : SP3 :=
  { baseSP3 with mjd_start := (200, ratTenth), week_counter := (20, ratTenth), epoch_interval := 900 }

/-- A dataset whose agency differs from baseSP3. -/
def c5B : SP3 := { baseSP3 with agency := "ESA" }

/-- Well-formed dataset with two epochs of position data and one clock
sample, for the idempotent-merge witness. -/
def c6S : SP3 :=
  { baseSP3 with
      epoch := [100, 200]
      sv := [sv1]
      position := [(100, [(sv1, (1, 2, 3))]), (200, [(sv1, (4, 5, 6))])]
      clock := [(100, [(sv1, 5)])] }

/-- Two-sample series (epochs 0 and 1000 ns, interval 600 ns): for order
1 the window check of the code accepts a center at the last sample. -/
def c3X : SP3 :=
  { baseSP3 with
      epoch := [0, 1000]
      sv := [sv1]
      epoch_interval := 600
      position := [(0, [(sv1, (1, 1, 1))]), (1000, [(sv1, (2, 2, 2))])] }

/-- Three-sample series for the interpolation-window witness. -/
def c3W : SP3 :=
  { baseSP3 with
      epoch := [0, 1000, 2000]
      sv := [sv1]
      epoch_interval := 600
      position := [(0, [(sv1, (1, 1, 1))]), (1000, [(sv1, (2, 2, 2))]), (2000, [(sv1, (3, 3, 3))])] }

/-- Dataset recording five comments (the fixed four-slot comment block of the writer
block cannot represent it). -/
def c7S : SP3 :=
  { baseSP3 with epoch := [0], comments := ["one", "two", "three", "four", "five"] }

/-- Dataset recording two comments, within the four-slot budget. -/
def c7W : SP3 := { baseSP3 with epoch := [0], comments := ["alpha", "beta"] }

/-- A well-formed epoch marker payload with zero fractional seconds. -/
def c8s1 : String := "2023  8 27  0  0  0.0000000"

/-- The same payload with fractional-second field 0.5 s. -/
def c8s2 : String := "2023  8 27  0  0  0.5000000"

theorem epochLtB_irrefl (a : Epoch) : epochLtB a a = false := by
  simp [epochLtB]

theorem epochLtB_asymm (a b : Epoch) (h1 : epochLtB a b = true) (h2 : epochLtB b a = true) :
    False := by
  unfold epochLtB at h1 h2
  rw [decide_eq_true_eq] at h1 h2
  exact absurd h1 (not_lt.mpr h2.le)

theorem svLtB_irrefl (a : Sv) : svLtB a a = false := by
  simp [svLtB]

theorem svLtB_asymm (a b : Sv) (h1 : svLtB a b = true) (h2 : svLtB b a = true) : False := by
  unfold svLtB at h1 h2
  simp only [Bool.or_eq_true, Bool.and_eq_true, decide_eq_true_eq] at h1 h2
  omega

theorem versionLtB_irrefl (v : Version) : versionLtB v v = false := by
  cases v <;> rfl

theorem mapLookup_mem {α β : Type} [DecidableEq α] (k : α) (v : β) :
    ∀ (l : List (α × β)), mapLookup k l = some v → (k, v) ∈ l
  | [], h => by simp [mapLookup] at h
  | (k0, v0) :: t, h => by
    by_cases hk : k = k0
    · rw [mapLookup, if_pos hk] at h
      injection h with h
      subst hk
      subst h
      exact List.mem_cons_self _ _
    · rw [mapLookup, if_neg hk] at h
      exact List.mem_cons_of_mem _ (mapLookup_mem k v t h)

theorem mapLookup_of_mem {α β : Type} [DecidableEq α] {ltb : α → α → Bool}
    (hirr : ∀ a, ltb a a = false) (k : α) (v : β) :
    ∀ (l : List (α × β)), List.Pairwise (fun p q => ltb p.1 q.1 = true) l →
      (k, v) ∈ l → mapLookup k l = some v
  | [], _, hm => absurd hm (List.not_mem_nil _)
  | (k0, v0) :: t, hs, hm => by
    rcases List.mem_cons.mp hm with heq | htail
    · obtain ⟨rfl, rfl⟩ := Prod.mk.injEq .. ▸ heq
      rw [mapLookup, if_pos rfl]
    · have hlt : ltb k0 k = true := (List.pairwise_cons.mp hs).1 (k, v) htail
      have hk : k ≠ k0 := by
        intro he
        rw [he, hirr k0] at hlt
        exact Bool.false_ne_true hlt
      rw [mapLookup, if_neg hk]
      exact mapLookup_of_mem hirr k v t (List.pairwise_cons.mp hs).2 htail

theorem mapInsert_lookup_self {α β : Type} [DecidableEq α] {ltb : α → α → Bool}
    (hirr : ∀ a, ltb a a = false)
    (hasym : ∀ a b, ltb a b = true → ltb b a = true → False) (k : α) (v : β) :
    ∀ (l : List (α × β)), List.Pairwise (fun p q => ltb p.1 q.1 = true) l →
      mapLookup k l = some v → mapInsert ltb k v l = l
  | [], _, hlk => by simp [mapLookup] at hlk
  | (k0, v0) :: t, hs, hlk => by
    by_cases hk : k = k0
    · rw [mapLookup, if_pos hk] at hlk
      injection hlk with hv
      have hltb : ¬ ltb k k0 = true := by
        rw [hk, hirr k0]
        exact Bool.false_ne_true
      rw [mapInsert, if_neg hltb, if_pos hk, hk, ← hv]
    · rw [mapLookup, if_neg hk] at hlk
      have hmem := mapLookup_mem k v t hlk
      have hlt : ltb k0 k = true := (List.pairwise_cons.mp hs).1 (k, v) hmem
      have hltb : ¬ ltb k k0 = true := fun hc => hasym k k0 hc hlt
      rw [mapInsert, if_neg hltb, if_neg hk]
      exact congrArg (List.cons (k0, v0))
        (mapInsert_lookup_self hirr hasym k v t (List.pairwise_cons.mp hs).2 hlk)

theorem foldl_mapInsert_id {α β : Type} [DecidableEq α] {ltb : α → α → Bool}
    (hirr : ∀ a, ltb a a = false)
    (hasym : ∀ a b, ltb a b = true → ltb b a = true → False) (base : List (α × β))
    (hs : List.Pairwise (fun p q => ltb p.1 q.1 = true) base) :
    ∀ (l : List (α × β)), (∀ p ∈ l, p ∈ base) →
      l.foldl (fun m sp => mapInsert ltb sp.1 sp.2 m) base = base
  | [], _ => rfl
  | p :: t, hsub => by
    have hmem : (p.1, p.2) ∈ base := by
      rw [Prod.mk.eta]
      exact hsub p (List.mem_cons_self _ _)
    have h1 : mapInsert ltb p.1 p.2 base = base :=
      mapInsert_lookup_self hirr hasym p.1 p.2 base hs
        (mapLookup_of_mem hirr p.1 p.2 base hs hmem)
    rw [List.foldl_cons, h1]
    exact foldl_mapInsert_id hirr hasym base hs t
      (fun q hq => hsub q (List.mem_cons_of_mem _ hq))

theorem mergePosStep_self (s : SP3) (h : recWF s.position) (e : Epoch × SvMap Vector3D)
    (he : e ∈ s.position) : mergePosStep s e = s := by
  obtain ⟨houter, hinner⟩ := h
  have hmem : (e.1, e.2) ∈ s.position := by rw [Prod.mk.eta]; exact he
  have hlk : mapLookup e.1 s.position = some e.2 :=
    mapLookup_of_mem epochLtB_irrefl e.1 e.2 s.position houter hmem
  unfold mergePosStep
  rw [hlk]
  dsimp only
  rw [foldl_mapInsert_id svLtB_irrefl svLtB_asymm e.2 (hinner e he) e.2 (fun p hp => hp)]
  rw [mapInsert_lookup_self epochLtB_irrefl epochLtB_asymm e.1 e.2 s.position houter hlk]

theorem mergeClkStep_self (s : SP3) (h : recWF s.clock) (e : Epoch × SvMap Rat)
    (he : e ∈ s.clock) : mergeClkStep s e = s := by
  obtain ⟨houter, hinner⟩ := h
  have hmem : (e.1, e.2) ∈ s.clock := by rw [Prod.mk.eta]; exact he
  have hlk : mapLookup e.1 s.clock = some e.2 :=
    mapLookup_of_mem epochLtB_irrefl e.1 e.2 s.clock houter hmem
  unfold mergeClkStep
  rw [hlk]
  dsimp only
  rw [foldl_mapInsert_id svLtB_irrefl svLtB_asymm e.2 (hinner e he) e.2 (fun p hp => hp)]
  rw [mapInsert_lookup_self epochLtB_irrefl epochLtB_asymm e.1 e.2 s.clock houter hlk]

theorem mergeVelStep_self (s : SP3) (h : recWF s.velocities) (e : Epoch × SvMap Vector3D)
    (he : e ∈ s.velocities) : mergeVelStep s e = s := by
  obtain ⟨houter, hinner⟩ := h
  have hmem : (e.1, e.2) ∈ s.velocities := by rw [Prod.mk.eta]; exact he
  have hlk : mapLookup e.1 s.velocities = some e.2 :=
    mapLookup_of_mem epochLtB_irrefl e.1 e.2 s.velocities houter hmem
  unfold mergeVelStep
  rw [hlk]
  dsimp only
  rw [foldl_mapInsert_id svLtB_irrefl svLtB_asymm e.2 (hinner e he) e.2 (fun p hp => hp)]
  rw [mapInsert_lookup_self epochLtB_irrefl epochLtB_asymm e.1 e.2 s.velocities houter hlk]

theorem foldl_mergePosStep_self (s : SP3) (h : recWF s.position) :
    ∀ (l : List (Epoch × SvMap Vector3D)), (∀ e ∈ l, e ∈ s.position) →
      l.foldl mergePosStep s = s
  | [], _ => rfl
  | e :: t, hsub => by
    rw [List.foldl_cons, mergePosStep_self s h e (hsub e (List.mem_cons_self _ _))]
    exact foldl_mergePosStep_self s h t (fun q hq => hsub q (List.mem_cons_of_mem _ hq))

theorem foldl_mergeClkStep_self (s : SP3) (h : recWF s.clock) :
    ∀ (l : List (Epoch × SvMap Rat)), (∀ e ∈ l, e ∈ s.clock) →
      l.foldl mergeClkStep s = s
  | [], _ => rfl
  | e :: t, hsub => by
    rw [List.foldl_cons, mergeClkStep_self s h e (hsub e (List.mem_cons_self _ _))]
    exact foldl_mergeClkStep_self s h t (fun q hq => hsub q (List.mem_cons_of_mem _ hq))

theorem foldl_mergeVelStep_self (s : SP3) (h : recWF s.velocities) :
    ∀ (l : List (Epoch × SvMap Vector3D)), (∀ e ∈ l, e ∈ s.velocities) →
      l.foldl mergeVelStep s = s
  | [], _ => rfl
  | e :: t, hsub => by
    rw [List.foldl_cons, mergeVelStep_self s h e (hsub e (List.mem_cons_self _ _))]
    exact foldl_mergeVelStep_self s h t (fun q hq => hsub q (List.mem_cons_of_mem _ hq))

theorem foldl_sv_id (base : List Sv) :
    ∀ (l : List Sv), (∀ x ∈ l, x ∈ base) →
      l.foldl (fun acc sv => if sv ∈ acc then acc else acc ++ [sv]) base = base
  | [], _ => rfl
  | x :: t, hsub => by
    rw [List.foldl_cons, if_pos (hsub x (List.mem_cons_self _ _))]
    exact foldl_sv_id base t (fun q hq => hsub q (List.mem_cons_of_mem _ hq))

theorem mergeConstStep_self (s : SP3) : mergeConstStep s s = s := by
  unfold mergeConstStep
  rw [if_neg (by simp)]

theorem mergeVersionStep_self (s : SP3) : mergeVersionStep s s = s := by
  unfold mergeVersionStep
  simp [versionLtB_irrefl]

theorem mergeMjdStep_self (s : SP3) : mergeMjdStep s s = s := by
  unfold mergeMjdStep
  dsimp only
  rw [if_neg (lt_irrefl _), if_neg (lt_irrefl _)]

theorem mergeWeekStep_self (s : SP3) : mergeWeekStep s s = s := by
  unfold mergeWeekStep
  dsimp only
  rw [if_neg (lt_irrefl _), if_neg (lt_irrefl _)]

theorem mergeSvStep_self (s : SP3) : mergeSvStep s s = s := by
  unfold mergeSvStep
  rw [foldl_sv_id s.sv s.sv (fun x hx => hx)]

theorem mergeIntervalStep_self (s : SP3) : mergeIntervalStep s s = s := by
  unfold mergeIntervalStep
  rw [max_self]

theorem merge_mut_self (s : SP3) (h : SP3WF s) : merge_mut s s = (none, s) := by
  obtain ⟨heps, hpos, hclk, hvel⟩ := h
  unfold merge_mut
  rw [if_neg (by simp), if_neg (by simp), if_neg (by simp)]
  dsimp only
  rw [mergeConstStep_self, mergeVersionStep_self, mergeMjdStep_self, mergeWeekStep_self,
    mergeSvStep_self, mergeIntervalStep_self]
  rw [foldl_mergePosStep_self s hpos s.position (fun e he => he)]
  rw [foldl_mergeClkStep_self s hclk s.clock (fun e he => he)]
  rw [foldl_mergeVelStep_self s hvel s.velocities (fun e he => he)]
  rw [List.Sorted.insertionSort_eq (List.Pairwise.imp (fun hab => le_of_lt hab) heps)]

theorem mergeConstStep_mjd (s rhs : SP3) : (mergeConstStep s rhs).mjd_start = s.mjd_start := by
  unfold mergeConstStep
  split <;> rfl

theorem mergeConstStep_week (s rhs : SP3) :
    (mergeConstStep s rhs).week_counter = s.week_counter := by
  unfold mergeConstStep
  split <;> rfl

theorem mergeConstStep_itv (s rhs : SP3) :
    (mergeConstStep s rhs).epoch_interval = s.epoch_interval := by
  unfold mergeConstStep
  split <;> rfl

theorem mergeVersionStep_mjd (s rhs : SP3) : (mergeVersionStep s rhs).mjd_start = s.mjd_start := by
  unfold mergeVersionStep
  split <;> rfl

theorem mergeVersionStep_week (s rhs : SP3) :
    (mergeVersionStep s rhs).week_counter = s.week_counter := by
  unfold mergeVersionStep
  split <;> rfl

theorem mergeVersionStep_itv (s rhs : SP3) :
    (mergeVersionStep s rhs).epoch_interval = s.epoch_interval := by
  unfold mergeVersionStep
  split <;> rfl

theorem mergeMjdStep_mjd (s rhs : SP3) :
    (mergeMjdStep s rhs).mjd_start
      = (min s.mjd_start.1 rhs.mjd_start.1, min s.mjd_start.2 rhs.mjd_start.2) := by
  unfold mergeMjdStep
  dsimp only
  by_cases hA : rhs.mjd_start.1 < s.mjd_start.1
  · rw [if_pos hA]
    dsimp only
    by_cases hB : rhs.mjd_start.2 < s.mjd_start.2
    · rw [if_pos hB]
      rw [min_eq_right (le_of_lt hA), min_eq_right (le_of_lt hB)]
    · rw [if_neg hB]
      rw [min_eq_right (le_of_lt hA), min_eq_left (le_of_not_lt hB)]
  · rw [if_neg hA]
    by_cases hB : rhs.mjd_start.2 < s.mjd_start.2
    · rw [if_pos hB]
      rw [min_eq_left (le_of_not_lt hA), min_eq_right (le_of_lt hB)]
    · rw [if_neg hB]
      rw [min_eq_left (le_of_not_lt hA), min_eq_left (le_of_not_lt hB)]

theorem mergeMjdStep_week (s rhs : SP3) : (mergeMjdStep s rhs).week_counter = s.week_counter := by
  unfold mergeMjdStep
  dsimp only
  split <;> split <;> rfl

theorem mergeMjdStep_itv (s rhs : SP3) :
    (mergeMjdStep s rhs).epoch_interval = s.epoch_interval := by
  unfold mergeMjdStep
  dsimp only
  split <;> split <;> rfl

theorem mergeWeekStep_week (s rhs : SP3) :
    (mergeWeekStep s rhs).week_counter
      = (min s.week_counter.1 rhs.week_counter.1, min s.week_counter.2 rhs.week_counter.2) := by
  unfold mergeWeekStep
  dsimp only
  by_cases hA : rhs.week_counter.1 < s.week_counter.1
  · rw [if_pos hA]
    dsimp only
    by_cases hB : rhs.week_counter.2 < s.week_counter.2
    · rw [if_pos hB]
      rw [min_eq_right (le_of_lt hA), min_eq_right (le_of_lt hB)]
    · rw [if_neg hB]
      rw [min_eq_right (le_of_lt hA), min_eq_left (le_of_not_lt hB)]
  · rw [if_neg hA]
    by_cases hB : rhs.week_counter.2 < s.week_counter.2
    · rw [if_pos hB]
      rw [min_eq_left (le_of_not_lt hA), min_eq_right (le_of_lt hB)]
    · rw [if_neg hB]
      rw [min_eq_left (le_of_not_lt hA), min_eq_left (le_of_not_lt hB)]

theorem mergeWeekStep_mjd (s rhs : SP3) : (mergeWeekStep s rhs).mjd_start = s.mjd_start := by
  unfold mergeWeekStep
  dsimp only
  split <;> split <;> rfl

theorem mergeWeekStep_itv (s rhs : SP3) :
    (mergeWeekStep s rhs).epoch_interval = s.epoch_interval := by
  unfold mergeWeekStep
  dsimp only
  split <;> split <;> rfl

theorem mergeSvStep_mjd (s rhs : SP3) : (mergeSvStep s rhs).mjd_start = s.mjd_start := rfl

theorem mergeSvStep_week (s rhs : SP3) : (mergeSvStep s rhs).week_counter = s.week_counter := rfl

theorem mergeSvStep_itv (s rhs : SP3) :
    (mergeSvStep s rhs).epoch_interval = s.epoch_interval := rfl

theorem mergeIntervalStep_mjd (s rhs : SP3) :
    (mergeIntervalStep s rhs).mjd_start = s.mjd_start := rfl

theorem mergeIntervalStep_week (s rhs : SP3) :
    (mergeIntervalStep s rhs).week_counter = s.week_counter := rfl

theorem mergeIntervalStep_itv (s rhs : SP3) :
    (mergeIntervalStep s rhs).epoch_interval = max s.epoch_interval rhs.epoch_interval := rfl

theorem mergePosStep_mjd (acc : SP3) (e : Epoch × SvMap Vector3D) :
    (mergePosStep acc e).mjd_start = acc.mjd_start := by
  unfold mergePosStep
  cases mapLookup e.1 acc.position <;> rfl

theorem mergePosStep_week (acc : SP3) (e : Epoch × SvMap Vector3D) :
    (mergePosStep acc e).week_counter = acc.week_counter := by
  unfold mergePosStep
  cases mapLookup e.1 acc.position <;> rfl

theorem mergePosStep_itv (acc : SP3) (e : Epoch × SvMap Vector3D) :
    (mergePosStep acc e).epoch_interval = acc.epoch_interval := by
  unfold mergePosStep
  cases mapLookup e.1 acc.position <;> rfl

theorem mergeClkStep_mjd (acc : SP3) (e : Epoch × SvMap Rat) :
    (mergeClkStep acc e).mjd_start = acc.mjd_start := by
  unfold mergeClkStep
  cases mapLookup e.1 acc.clock
  · dsimp only
    split <;> rfl
  · rfl

theorem mergeClkStep_week (acc : SP3) (e : Epoch × SvMap Rat) :
    (mergeClkStep acc e).week_counter = acc.week_counter := by
  unfold mergeClkStep
  cases mapLookup e.1 acc.clock
  · dsimp only
    split <;> rfl
  · rfl

theorem mergeClkStep_itv (acc : SP3) (e : Epoch × SvMap Rat) :
    (mergeClkStep acc e).epoch_interval = acc.epoch_interval := by
  unfold mergeClkStep
  cases mapLookup e.1 acc.clock
  · dsimp only
    split <;> rfl
  · rfl

theorem mergeVelStep_mjd (acc : SP3) (e : Epoch × SvMap Vector3D) :
    (mergeVelStep acc e).mjd_start = acc.mjd_start := by
  unfold mergeVelStep
  cases mapLookup e.1 acc.velocities
  · dsimp only
    split <;> rfl
  · rfl

theorem mergeVelStep_week (acc : SP3) (e : Epoch × SvMap Vector3D) :
    (mergeVelStep acc e).week_counter = acc.week_counter := by
  unfold mergeVelStep
  cases mapLookup e.1 acc.velocities
  · dsimp only
    split <;> rfl
  · rfl

theorem mergeVelStep_itv (acc : SP3) (e : Epoch × SvMap Vector3D) :
    (mergeVelStep acc e).epoch_interval = acc.epoch_interval := by
  unfold mergeVelStep
  cases mapLookup e.1 acc.velocities
  · dsimp only
    split <;> rfl
  · rfl

theorem foldl_pres_mjd {α : Type} (f : SP3 → α → SP3)
    (hf : ∀ s a, (f s a).mjd_start = s.mjd_start) :
    ∀ (l : List α) (s : SP3), (l.foldl f s).mjd_start = s.mjd_start
  | [], _ => rfl
  | a :: t, s => by rw [List.foldl_cons, foldl_pres_mjd f hf t (f s a), hf]

theorem foldl_pres_week {α : Type} (f : SP3 → α → SP3)
    (hf : ∀ s a, (f s a).week_counter = s.week_counter) :
    ∀ (l : List α) (s : SP3), (l.foldl f s).week_counter = s.week_counter
  | [], _ => rfl
  | a :: t, s => by rw [List.foldl_cons, foldl_pres_week f hf t (f s a), hf]

theorem foldl_pres_itv {α : Type} (f : SP3 → α → SP3)
    (hf : ∀ s a, (f s a).epoch_interval = s.epoch_interval) :
    ∀ (l : List α) (s : SP3), (l.foldl f s).epoch_interval = s.epoch_interval
  | [], _ => rfl
  | a :: t, s => by rw [List.foldl_cons, foldl_pres_itv f hf t (f s a), hf]


/-- Claim C1 (code evaluation at the failing input): the parse-time store
guard of SP3::from_file keeps a position vector only when all three axes
are nonzero, so the non-sentinel vector (1, 0, 0) is dropped exactly like
the (0, 0, 0) sentinel, while an all-nonzero vector is stored under the
current epoch and vehicle. -/
theorem claim_C1_zero_axis_dropped :
    storePosition [] 0 sv1 (1, 0, 0) = []
      ∧ storePosition [] 0 sv1 (0, 0, 0) = []
      ∧ storePosition [] 0 sv1 (1, 2, 3) = [(0, [(sv1, (1, 2, 3))])] := by
  refine ⟨?_, ?_, ?_⟩ <;> decide

/-- Claim C2 (code evaluation at the failing input): merging a dataset
whose epoch 100 holds only clock data with one holding position data at
the same epoch succeeds but leaves epoch 100 twice in the merged epoch
list, while the spec-side deduplicated sorted union is [100]. -/
theorem claim_C2_duplicate_epoch :
    (merge_mut c2A c2B).1 = none
      ∧ (merge_mut c2A c2B).2.epoch = [100, 100]
      ∧ specEpochUnion c2A.epoch c2B.epoch = [100]
      ∧ ¬ (merge_mut c2A c2B).2.epoch = specEpochUnion c2A.epoch c2B.epoch := by
  refine ⟨?_, ?_, ?_, ?_⟩ <;> decide

/-- Claim C4 (amended): after a merge that passes the hard compatibility
checks, MJD-start and week-counter take the componentwise minimum of the
two inputs (integer part and fractional part minimized independently),
and the epoch interval takes the maximum of the two. -/
theorem claim_C4_componentwise_min (a b : SP3) (h1 : a.agency = b.agency)
    (h2 : a.time_system = b.time_system) (h3 : a.coord_system = b.coord_system) :
    (merge_mut a b).2.mjd_start
        = (min a.mjd_start.1 b.mjd_start.1, min a.mjd_start.2 b.mjd_start.2)
      ∧ (merge_mut a b).2.week_counter
        = (min a.week_counter.1 b.week_counter.1, min a.week_counter.2 b.week_counter.2)
      ∧ (merge_mut a b).2.epoch_interval = max a.epoch_interval b.epoch_interval := by
  unfold merge_mut
  rw [if_neg (by simp [h1]), if_neg (by simp [h2]), if_neg (by simp [h3])]
  dsimp only
  refine ⟨?_, ?_, ?_⟩
  · rw [foldl_pres_mjd mergeVelStep mergeVelStep_mjd,
      foldl_pres_mjd mergeClkStep mergeClkStep_mjd,
      foldl_pres_mjd mergePosStep mergePosStep_mjd,
      mergeIntervalStep_mjd, mergeSvStep_mjd, mergeWeekStep_mjd, mergeMjdStep_mjd,
      mergeVersionStep_mjd, mergeConstStep_mjd]
  · rw [foldl_pres_week mergeVelStep mergeVelStep_week,
      foldl_pres_week mergeClkStep mergeClkStep_week,
      foldl_pres_week mergePosStep mergePosStep_week,
      mergeIntervalStep_week, mergeSvStep_week, mergeWeekStep_week, mergeMjdStep_week,
      mergeVersionStep_week, mergeConstStep_week]
  · rw [foldl_pres_itv mergeVelStep mergeVelStep_itv,
      foldl_pres_itv mergeClkStep mergeClkStep_itv,
      foldl_pres_itv mergePosStep mergePosStep_itv,
      mergeIntervalStep_itv, mergeSvStep_itv, mergeWeekStep_itv, mergeMjdStep_itv,
      mergeVersionStep_itv, mergeConstStep_itv]

/-- Claim C4 witness: the amended componentwise-minimum law evaluated on
the concrete compatible pair c4A, c4B. -/
theorem claim_C4_witness :
    (merge_mut c4A c4B).2.mjd_start
        = (min c4A.mjd_start.1 c4B.mjd_start.1, min c4A.mjd_start.2 c4B.mjd_start.2)
      ∧ (merge_mut c4A c4B).2.week_counter
        = (min c4A.week_counter.1 c4B.week_counter.1, min c4A.week_counter.2 c4B.week_counter.2)
      ∧ (merge_mut c4A c4B).2.epoch_interval = max c4A.epoch_interval c4B.epoch_interval :=
  claim_C4_componentwise_min c4A c4B rfl rfl rfl

/-- Claim C4 counterexample: for inputs with MJD starts (100, 0.5) and
(200, 0.1) the merge succeeds and produces MJD start (100, 0.1) — a value
equal to the start of neither input, in particular not the earlier one. -/
theorem claim_C4_counterexample :
    (merge_mut c4A c4B).1 = none
      ∧ (merge_mut c4A c4B).2.mjd_start = (100, ratTenth)
      ∧ ¬ (merge_mut c4A c4B).2.mjd_start = c4A.mjd_start
      ∧ ¬ (merge_mut c4A c4B).2.mjd_start = c4B.mjd_start := by
  refine ⟨?_, ?_, ?_, ?_⟩ <;> decide

/-- Claim C5: when the agency strings differ, merge_mut fails with the
agency-mismatch (DataProvider) error and returns the destination
unchanged, and merge returns the same error. -/
theorem claim_C5_agency_mismatch (a b : SP3) (h : a.agency ≠ b.agency) :
    merge_mut a b = (some MergeError.DataProvider, a)
      ∧ merge a b = Except.error MergeError.DataProvider := by
  have hm : merge_mut a b = (some MergeError.DataProvider, a) := by
    unfold merge_mut
    rw [if_pos h]
  exact ⟨hm, by simp [merge, hm]⟩

/-- Claim C5 witness: the agency-mismatch law evaluated on baseSP3
(agency IGS) against c5B (agency ESA). -/
theorem claim_C5_witness :
    merge_mut baseSP3 c5B = (some MergeError.DataProvider, baseSP3)
      ∧ merge baseSP3 c5B = Except.error MergeError.DataProvider :=
  claim_C5_agency_mismatch baseSP3 c5B (by decide)

/-- Claim C6: merging a well-formed dataset with itself succeeds and
returns a dataset value-equal to the input (all header fields, the epoch
list, the vehicle list and all four record maps unchanged). -/
theorem claim_C6_idempotent (s : SP3) (h : SP3WF s) : merge s s = Except.ok s := by
  unfold merge
  rw [merge_mut_self s h]

/-- Claim C6 witness: idempotence evaluated on the concrete well-formed
dataset c6S. -/
theorem claim_C6_witness : merge c6S c6S = Except.ok c6S :=
  claim_C6_idempotent c6S (by refine ⟨?_, ⟨?_, ?_⟩, ⟨?_, ?_⟩, ⟨?_, ?_⟩⟩ <;> decide)

/-- Claim C10: DataUsed::complex_combination returns false for every
non-empty inner list (including the singleton ComplexMix produced by
parsing MIXED) and panics (none) on the empty list, as produced by
DataUsed::default(). -/
theorem claim_C10_complex_combination (d : DataUsed) :
    complex_combination d = if d.inner = [] then none else some false := by
  obtain ⟨l⟩ := d
  cases l with
  | nil => rfl
  | cons a t => rfl


/-- Claim C3 (amended): when the interpolation center is found at index c
of the series of the vehicle, an estimate is produced exactly when at least
min_before samples precede the center and at least min_after samples
remain from the center (inclusive) to the end, where (min_before,
min_after) = ((N+1)/2, (N+1)/2) for odd order N and (N/2, N/2 + 1) for
even N; so for odd N the blocked tail margin is one sample narrower than
the ⌈(N+1)/2⌉ of the claim. -/
theorem claim_C3_window (s : SP3) (epoch : Epoch) (sv : Sv) (order : Nat) (c : Nat)
    (h : centerIndex s epoch sv = some c) :
    (interpolate s epoch sv order).isSome = true ↔
      ((windowMargins order).1 ≤ c
        ∧ (windowMargins order).2 ≤ (svData s sv).length - c) := by
  unfold interpolate
  rw [h]
  dsimp only
  by_cases hcond : c < (windowMargins order).1
      ∨ (svData s sv).length - c < (windowMargins order).2
  · rw [if_pos hcond]
    simp only [Option.isSome_none, Bool.false_eq_true, false_iff]
    omega
  · rw [if_neg hcond]
    simp only [Option.isSome_some, true_iff]
    omega

/-- Claim C3 witness: the window law evaluated on the three-sample series
c3W at order 1 with the center at index 1. -/
theorem claim_C3_window_witness :
    centerIndex c3W 1000 sv1 = some 1
      ∧ ((interpolate c3W 1000 sv1 1).isSome = true ↔
        ((windowMargins 1).1 ≤ 1 ∧ (windowMargins 1).2 ≤ (svData c3W sv1).length - 1)) :=
  ⟨by decide, claim_C3_window c3W 1000 sv1 1 1 (by decide)⟩

/-- Claim C3 counterexample: on the two-sample series c3X with order 1,
the center lands on the last sample (index 1 of 2, within the last
⌈(1+1)/2⌉ = 1 samples), yet the code produces an estimate, where the
claim requires none. -/
theorem claim_C3_counterexample :
    centerIndex c3X 1000 sv1 = some 1
      ∧ (svData c3X sv1).length = 2
      ∧ windowMargins 1 = (1, 1)
      ∧ (interpolate c3X 1000 sv1 1).isSome = true := by
  refine ⟨?_, ?_, ?_, ?_⟩ <;> decide

/-- Claim C9: SP3::to_file called on a dataset with an empty epoch list
panics on first_epoch().unwrap() (modelled as none) instead of returning
an error value. -/
theorem claim_C9_empty_panics (s : SP3) (h : s.epoch = []) : to_file s = none := by
  unfold to_file first_epoch
  rw [h]
  rfl

/-- Claim C9 witness: the panic precondition evaluated on the concrete
empty-epoch dataset baseSP3. -/
theorem claim_C9_witness : to_file baseSP3 = none :=
  claim_C9_empty_panics baseSP3 rfl


theorem okOr_some {α : Type} (a : α) (e : ParsingError) : okOr (some a) e = Except.ok a := rfl

theorem exceptBind_ok {α β : Type} (a : α) (f : α → Except ParsingError β) :
    Bind.bind (Except.ok a) f = f a := rfl

theorem slice_eq_of_take20 (c1 c2 : String) (h : c1.toList.take 20 = c2.toList.take 20)
    (a b : Nat) (hb : b ≤ 20) : slice c1 a b = slice c2 a b := by
  unfold slice
  have t1 : (c1.toList.take 20).take b = c1.toList.take b := by
    rw [List.take_take, min_eq_left hb]
  have t2 : (c2.toList.take 20).take b = c2.toList.take b := by
    rw [List.take_take, min_eq_left hb]
  rw [← t1, ← t2, h]

/-- Claim C8 (amended): parse_epoch validates the fractional-second field
(an unparsable field is a named error) but does not incorporate its value
into the instant: whenever two contents agree on their first 20
characters (all six integer sub-fields) and both fractional fields
parse, the parsed instants are equal, whatever the fractions are. -/
theorem claim_C8_fraction_not_used (c1 c2 : String) (ts : TimeScale)
    (h20 : c1.toList.take 20 = c2.toList.take 20)
    (hf1 : (parseF64 (trimChars (slice c1 20 27))).isSome = true)
    (hf2 : (parseF64 (trimChars (slice c2 20 27))).isSome = true) :
    parse_epoch c1 ts = parse_epoch c2 ts := by
  obtain ⟨q1, hq1⟩ := Option.isSome_iff_exists.mp hf1
  obtain ⟨q2, hq2⟩ := Option.isSome_iff_exists.mp hf2
  unfold parse_epoch
  simp only [slice_eq_of_take20 c1 c2 h20 0 4 (by omega),
    slice_eq_of_take20 c1 c2 h20 4 7 (by omega),
    slice_eq_of_take20 c1 c2 h20 7 10 (by omega),
    slice_eq_of_take20 c1 c2 h20 10 13 (by omega),
    slice_eq_of_take20 c1 c2 h20 13 16 (by omega),
    slice_eq_of_take20 c1 c2 h20 16 19 (by omega),
    hq1, hq2, okOr_some, exceptBind_ok]

/-- Claim C8 witness: the fraction-indifference law evaluated on the two
concrete epoch payloads c8s1 and c8s2 (fractions 0.0 and 0.5 s). -/
theorem claim_C8_witness :
    parse_epoch c8s1 TimeScale.UTC = parse_epoch c8s2 TimeScale.UTC :=
  claim_C8_fraction_not_used c8s1 c8s2 TimeScale.UTC (by decide) (by decide) (by decide)

/-- Claim C8 counterexample: the two well-formed epoch payloads c8s1 and
c8s2 differ exactly in the fractional-second field, both parse
successfully, and they parse to the same instant — where the claim
requires different instants. -/
theorem claim_C8_counterexample :
    parse_epoch c8s1 TimeScale.UTC = parse_epoch c8s2 TimeScale.UTC
      ∧ (parse_epoch c8s1 TimeScale.UTC).toOption.isSome = true
      ∧ ¬ slice c8s1 20 27 = slice c8s2 20 27 :=
  ⟨rfl, by decide, by decide⟩


theorem isCC_cons_ne (a : Char) (l : List Char) (h : ¬ a = '/') :
    isCommentChunk (a :: l) = false := by
  cases l with
  | nil => rfl
  | cons b t =>
    show (a == '/' && b == '*') = false
    have hb : (a == '/') = false := by
      rw [beq_eq_false_iff_ne]
      exact h
    rw [hb, Bool.false_and]

theorem isCC_of_head (l : List Char) (h : l.head? ≠ some '/') : isCommentChunk l = false := by
  cases l with
  | nil => rfl
  | cons a t =>
    apply isCC_cons_ne
    intro ha
    exact h (by rw [List.head?_cons, ha])

theorem head_append (l m : List Char) (hl : l.head? ≠ some '/') (hm : m.head? ≠ some '/') :
    (l ++ m).head? ≠ some '/' := by
  cases l with
  | nil => simpa using hm
  | cons a t => simpa using hl

theorem constChar_ne (c : Constellation) : ¬ constChar c = '/' := by
  cases c <;> decide

theorem svFmt_head (sv : Sv) : (svFmt sv).head? ≠ some '/' := by
  intro h
  unfold svFmt at h
  rw [List.head?_cons] at h
  injection h with h
  exact constChar_ne sv.constellation h

theorem fill_head (k : Nat) :
    ((List.replicate k (str " 00")).flatten ++ str "\n").head? ≠ some '/' := by
  cases k with
  | zero => decide
  | succ n =>
    rw [List.replicate_succ, List.flatten_cons, List.append_assoc]
    have h00 : (str " 00" ++ ((List.replicate n (str " 00")).flatten ++ str "\n")).head?
        = some ' ' := rfl
    rw [h00]
    decide

theorem padTo60_head (content pad : Chunk) (h : padTo60 content = some pad)
    (hc : content.head? ≠ some '/') : pad.head? ≠ some '/' := by
  unfold padTo60 at h
  split at h
  · injection h with h
    subst h
    rw [List.append_assoc]
    exact head_append _ _ hc (fill_head _)
  · exact absurd h (by simp)

theorem svChunksAux_ok :
    ∀ (svs : List Sv) (chunks : List Chunk) (content : Chunk),
      (∀ ch ∈ chunks, isCommentChunk ch = false) → content.head? ≠ some '/' →
      (∀ ch ∈ (svChunksAux svs chunks content).1, isCommentChunk ch = false)
        ∧ (svChunksAux svs chunks content).2.head? ≠ some '/'
  | [], _, _, hch, hco => ⟨hch, hco⟩
  | sv :: rest, chunks, content, hch, hco => by
    have h2 : (content ++ svFmt sv).head? ≠ some '/' := head_append _ _ hco (svFmt_head sv)
    rw [svChunksAux]
    split
    · refine svChunksAux_ok rest _ _ ?_ (by decide)
      intro ch hmem
      rcases List.mem_append.mp hmem with hin | hone
      · exact hch ch hin
      · rw [List.mem_singleton.mp hone]
        exact isCC_of_head _ h2
    · exact svChunksAux_ok rest chunks (content ++ svFmt sv) hch h2

theorem svBlockChunks_ok (svs : List Sv) (svb : List Chunk)
    (h : svBlockChunks svs = some svb) : ∀ ch ∈ svb, isCommentChunk ch = false := by
  have haux := svChunksAux_ok svs [] []
    (fun ch hch => absurd hch (List.not_mem_nil ch)) (by decide)
  unfold svBlockChunks at h
  split at h
  · rcases hp : padTo60 (svChunksAux svs [] []).2 with _ | pad <;> rw [hp] at h
    · exact absurd h (by simp)
    · injection h with h
      subst h
      intro ch hch
      rcases List.mem_append.mp hch with h1 | h2
      · exact haux.1 ch h1
      · rw [List.mem_singleton.mp h2]
        exact isCC_of_head _ (padTo60_head _ _ hp haux.2)
  · injection h with h
    subst h
    exact haux.1

theorem commentBlock_all (cs : List String) :
    ∀ ch ∈ (cs.map (fun c => '/' :: '*' :: ' ' :: (str c ++ str "\n"))
      ++ List.replicate (4 - cs.length) ('/' :: '*' :: ' ' :: str "\n")),
      isCommentChunk ch = true := by
  intro ch hch
  rcases List.mem_append.mp hch with h1 | h2
  · obtain ⟨c, _, rfl⟩ := List.mem_map.mp h1
    rfl
  · rw [List.eq_of_mem_replicate h2]
    rfl

theorem commentChunks_some (cs : List String) (cc : List Chunk)
    (h : commentChunks cs = some cc) :
    cs.length ≤ 4
      ∧ cc = cs.map (fun c => '/' :: '*' :: ' ' :: (str c ++ str "\n"))
          ++ List.replicate (4 - cs.length) ('/' :: '*' :: ' ' :: str "\n") := by
  unfold commentChunks at h
  split at h
  next hle =>
    injection h with h
    exact ⟨hle, h.symm⟩
  next => exact absurd h (by simp)

theorem epochChunks_ok (s : SP3) : ∀ ch ∈ epochChunks s, isCommentChunk ch = false := by
  intro ch hch
  unfold epochChunks at hch
  obtain ⟨e, _, hmem⟩ := List.mem_flatMap.mp hch
  rcases List.mem_cons.mp hmem with rfl | hpos
  · unfold epochLineChunk
    dsimp only
    exact isCC_cons_ne _ _ (by decide)
  · unfold posLineChunks at hpos
    obtain ⟨p, _, rfl⟩ := List.mem_map.mp hpos
    exact isCC_cons_ne _ _ (by decide)

theorem filter_cc_nil (l : List Chunk) (h : ∀ ch ∈ l, isCommentChunk ch = false) :
    l.filter isCommentChunk = [] := by
  induction l with
  | nil => rfl
  | cons a t ih =>
    rw [List.filter_cons, h a (List.mem_cons_self _ _)]
    simp only [Bool.false_eq_true, if_false]
    exact ih (fun q hq => h q (List.mem_cons_of_mem _ hq))

theorem filter_cc_all (l : List Chunk) (h : ∀ ch ∈ l, isCommentChunk ch = true) :
    l.filter isCommentChunk = l := by
  induction l with
  | nil => rfl
  | cons a t ih =>
    rw [List.filter_cons, h a (List.mem_cons_self _ _), if_pos rfl]
    rw [ih (fun q hq => h q (List.mem_cons_of_mem _ hq))]

theorem to_file_some (s : SP3) (out : List Chunk) (h : to_file s = some out) :
    ∃ fe svb cc, first_epoch s = some fe ∧ svBlockChunks s.sv = some svb
      ∧ commentChunks s.comments = some cc
      ∧ out = [line1Chunk s fe, line2Chunk s, svCountChunk s] ++ svb ++ cc
          ++ epochChunks s ++ [str "EOF"] := by
  unfold to_file at h
  rcases hfe : first_epoch s with _ | fe <;> rw [hfe] at h
  · exact absurd h (by simp)
  · rcases hsv : svBlockChunks s.sv with _ | svb <;> rw [hsv] at h
    · exact absurd h (by simp)
    · rcases hcc : commentChunks s.comments with _ | cc <;> rw [hcc] at h
      · exact absurd h (by simp)
      · injection h with h
        exact ⟨fe, svb, cc, rfl, rfl, rfl, h.symm⟩

/-- Claim C7 (amended): whenever SP3::to_file completes and produces
output, that output contains exactly four comment lines — the recorded
comments first, then blank filler comment lines to reach four — and
completion forces at most four recorded comments.  With more than four
recorded comments the filler-count subtraction underflows, and with a
vehicle-block remainder the padding loop cannot bring to 60 characters
the writer never terminates, so no completed output exists there and no
dataset-independent four-slot law holds. -/
theorem claim_C7_four_comments (s : SP3) (out : List Chunk) (h : to_file s = some out) :
    s.comments.length ≤ 4
      ∧ out.filter isCommentChunk
        = s.comments.map (fun c => '/' :: '*' :: ' ' :: (str c ++ str "\n"))
          ++ List.replicate (4 - s.comments.length) ('/' :: '*' :: ' ' :: str "\n")
      ∧ (out.filter isCommentChunk).length = 4 := by
  obtain ⟨fe, svb, cc, hfe, hsv, hcc, hout⟩ := to_file_some s out h
  obtain ⟨hle, hcceq⟩ := commentChunks_some s.comments cc hcc
  subst hout
  have hhead : ∀ ch ∈ [line1Chunk s fe, line2Chunk s, svCountChunk s],
      isCommentChunk ch = false := by
    intro ch hch
    simp only [List.mem_cons, List.not_mem_nil, or_false] at hch
    rcases hch with rfl | rfl | rfl
    · unfold line1Chunk
      dsimp only
      exact isCC_cons_ne _ _ (by decide)
    · unfold line2Chunk
      exact isCC_cons_ne _ _ (by decide)
    · unfold svCountChunk
      exact isCC_cons_ne _ _ (by decide)
  have heof : ∀ ch ∈ [str "EOF"], isCommentChunk ch = false := by
    intro ch hch
    rw [List.mem_singleton.mp hch]
    decide
  have hccall : ∀ ch ∈ cc, isCommentChunk ch = true := by
    intro ch hch
    rw [hcceq] at hch
    exact commentBlock_all s.comments ch hch
  have hfil : ([line1Chunk s fe, line2Chunk s, svCountChunk s] ++ svb ++ cc
      ++ epochChunks s ++ [str "EOF"]).filter isCommentChunk = cc := by
    rw [List.filter_append, List.filter_append, List.filter_append, List.filter_append]
    rw [filter_cc_nil _ hhead, filter_cc_nil _ (svBlockChunks_ok s.sv svb hsv),
      filter_cc_all _ hccall, filter_cc_nil _ (epochChunks_ok s), filter_cc_nil _ heof]
    simp
  refine ⟨hle, ?_, ?_⟩
  · rw [hfil, hcceq]
  · rw [hfil, hcceq, List.length_append, List.length_map, List.length_replicate]
    omega

/-- Claim C7 witness: the four-slot law evaluated on the two-comment
dataset c7W, whose writer run completes. -/
theorem claim_C7_witness :
    (to_file c7W).isSome = true
      ∧ ((to_file c7W).getD []).filter isCommentChunk
        = c7W.comments.map (fun c => '/' :: '*' :: ' ' :: (str c ++ str "\n"))
          ++ List.replicate (4 - c7W.comments.length) ('/' :: '*' :: ' ' :: str "\n")
      ∧ (((to_file c7W).getD []).filter isCommentChunk).length = 4 := by
  obtain ⟨out, hout⟩ :=
    Option.isSome_iff_exists.mp (show (to_file c7W).isSome = true from by decide)
  obtain ⟨h1, h2, h3⟩ := claim_C7_four_comments c7W out hout
  rw [hout]
  exact ⟨rfl, by simpa using h2, by simpa using h3⟩

/-- Claim C7 counterexample: the five-comment dataset c7S yields no
completed writer output at all — its filler-count subtraction underflows
(debug panic, release wrap), modelled as none — so in particular no
output with exactly four comment lines, where the claim promises one
regardless of how many comments the dataset holds. -/
theorem claim_C7_counterexample :
    c7S.comments.length = 5 ∧ to_file c7S = none :=
  ⟨rfl, rfl⟩

end Sp3
